import Mathlib

/-!
Shallow embedding of the GIF-Maker client (src/App.tsx) and proofs about it.

The app keeps its session state in React hooks inside the `App` component:
`appState`, `images`, `generatedGif`, `loading`, `error`, `gifSpeed`.  We model
that state as a record `Session` and the event handlers as functions on it.
Image data URLs are abstracted to either a decodable raster with natural
dimensions, or an undecodable blob; browser canvas re-encoding is modelled as
preserving the drawn dimensions (the canvas 2d context is assumed available,
as in any functioning browser).
-/

namespace GifMaker

/-- A data URL as the browser's `Image` element sees it: either it decodes to
a raster with the given natural width/height, or decoding fails
(`img.onerror`). -/
inductive DataUrl where
  | img (width height : Nat)
  | bad
deriving DecidableEq, Repr

/-- JavaScript `Math.round` on the non-negative rational `a / b`
(half-up rounding): `⌊a/b + 1/2⌋ = (2*a + b) / (2*b)` in natural division. -/
def jsRound (a b : Nat) : Nat := (2 * a + b) / (2 * b)

/-- src/App.tsx `processImage`: decode the data URL; if both natural
dimensions are at most `maxDimension` re-encode at the original size,
otherwise downscale so the larger dimension equals `maxDimension`, the other
being `Math.round((other / larger) * maxDimension)`.  Decode failure rejects
with the source's error message. -/
def processImage (dataUrl : DataUrl) (maxDimension : Nat := 1920) :
    Except String DataUrl :=
  match dataUrl with
  | .bad => .error "Failed to load image for processing."
  | .img width height =>
    if width ≤ maxDimension ∧ height ≤ maxDimension then
      .ok (.img width height)
    else if width > height then
      .ok (.img maxDimension (jsRound (height * maxDimension) width))
    else
      .ok (.img (jsRound (width * maxDimension) height) maxDimension)

/-- One frame of the collection: `{ id: string, dataUrl: string }` in the
source; ids come from `crypto.randomUUID()`, modelled as opaque naturals. -/
structure Frame where
  id : Nat
  dataUrl : DataUrl
deriving DecidableEq, Repr

/-- src/types.ts `AppState`. -/
inductive AppState where
  | Capturing
  | Processing
  | Animating
  | Error
deriving DecidableEq, Repr

/-- The `App` component's React state, one field per `useState` hook. -/
structure Session where
  appState : AppState
  images : List Frame
  generatedGif : Option String
  loading : Bool
  error : Option String
  gifSpeed : Nat
deriving DecidableEq, Repr

/-- One file of an upload batch, as `handleFileChange` observes it:
a file whose declared MIME type is not `image/*` (silently resolved to
`null`), a file the `FileReader` delivers as a data URL (with the UUID that
would be assigned on success), or a file whose read fails
(`reader.onerror`). -/
inductive FileOutcome where
  | nonImage
  | content (id : Nat) (dataUrl : DataUrl)
  | readError
deriving DecidableEq, Repr

/-- The settled value of the per-file promise built in `handleFileChange`:
`null` for non-image files, a fresh frame when `processImage` succeeds,
rejection with the read or processing error otherwise. -/
def filePromise : FileOutcome → Except String (Option Frame)
  | .nonImage => .ok none
  | .readError => .error "Không thể đọc tệp đã chọn."
  | .content id d =>
    match processImage d with
    | .ok d2 => .ok (some ⟨id, d2⟩)
    | .error e => .error e

/-- The rejected promises of a batch, paired with their completion times. -/
def rejections (ps : List (Except String (Option Frame))) (times : List Nat) :
    List (String × Nat) :=
  (ps.zip times).filterMap fun pt =>
    match pt.1 with
    | .error e => some (e, pt.2)
    | .ok _ => none

/-- Earliest rejection by completion time (earlier list position wins ties),
mirroring which rejection `Promise.all` settles with. -/
def earliestRejection (best : String × Nat) :
    List (String × Nat) → String × Nat
  | [] => best
  | x :: xs => earliestRejection (if x.2 < best.2 then x else best) xs

/-- JavaScript `Promise.all`: if every promise fulfills, the values in input
order; otherwise rejection with the reason of the first promise (by
completion time) to reject. -/
def promiseAll (ps : List (Except String (Option Frame)))
    (times : List Nat) : Except String (List (Option Frame)) :=
  match rejections ps times with
  | [] => .ok (ps.map fun p =>
      match p with
      | .ok v => v
      | .error _ => none)
  | r :: rs => .error (earliestRejection r rs).1

/-- src/App.tsx `handleFileChange` on one picker interaction.  `files` is the
selection in user order and `times` the completion time of each file's
normalization (the model quantifies over all completion orders).  An empty
selection returns immediately; otherwise the error is cleared, the batch is
normalized concurrently and `Promise.all`-joined: on success the resulting
frames (minus silently dropped non-images) are appended after the existing
ones, on any rejection the error message is stored and no frame is appended.
`loading` is true only while the handler is in flight, so it ends false. -/
def handleFileChange (s : Session) (files : List FileOutcome)
    (times : List Nat) : Session :=
  if files.isEmpty then s
  else
    let s1 : Session := { s with error := none, loading := true }
    match promiseAll (files.map filePromise) times with
    | .ok results =>
      { s1 with images := s1.images ++ results.filterMap id, loading := false }
    | .error e => { s1 with error := some e, loading := false }

/-- src/App.tsx `handleRemoveImage`: keep every frame whose id differs. -/
def handleRemoveImage (s : Session) (id : Nat) : Session :=
  { s with images := s.images.filter fun img => img.id ≠ id }

/-- src/App.tsx `handleBack`: return to Capturing and drop the GIF. -/
def handleBack (s : Session) : Session :=
  { s with appState := .Capturing, generatedGif := none }

/-- The request `handleCreateGif` hands to `gifshot.createGIF`. -/
structure EncoderCall where
  images : List DataUrl
  interval : ℚ
  numWorkers : Nat
  gifWidth : Nat
  gifHeight : Nat
deriving DecidableEq, Repr

/-- The encoder's callback argument `{ error, image, errorMsg }`. -/
structure GifshotResponse where
  error : Bool
  image : String
  errorMsg : String
deriving DecidableEq, Repr

/-- The `gifshot.createGIF` completion callback in `handleCreateGif`,
applied to the state as it stands when assembly was triggered. -/
def gifshotCallback (s1 : Session) (obj : GifshotResponse) : Session :=
  if obj.error = false then
    { s1 with generatedGif := some obj.image, appState := .Animating }
  else
    { s1 with error := some ("Tạo GIF thất bại: " ++ obj.errorMsg),
              appState := .Capturing }

/-- Outcome of triggering `handleCreateGif`: validation rejection before any
phase change, failure of the first frame's dimension probe
(`firstImage.onerror`), or a single encoder invocation whose callback will
produce the final state. -/
inductive CreateGifResult where
  | tooFew (s : Session)
  | probeFailed (s : Session)
  | invoked (s1 : Session) (call : EncoderCall)
      (onResponse : GifshotResponse → Session)

/-- The final state a `CreateGifResult` reaches once the encoder (if it was
invoked at all) delivers `resp`. -/
def CreateGifResult.settle : CreateGifResult → GifshotResponse → Session
  | .tooFew s, _ => s
  | .probeFailed s, _ => s
  | .invoked _ _ onResponse, resp => onResponse resp

/-- src/App.tsx `handleCreateGif`: with fewer than 2 frames, set the
validation message and return; otherwise enter Processing, clear the error,
and decode the first frame for the target dimensions.  If that decode fails,
surface the probe error and fall back to Capturing; otherwise invoke the
encoder once with the frames' data URLs in order, `interval = gifSpeed/1000`
seconds, 2 workers, and the first frame's dimensions. -/
def handleCreateGif (s : Session) : CreateGifResult :=
  if s.images.length < 2 then
    .tooFew { s with error := some "Vui lòng tải lên ít nhất 2 ảnh để tạo GIF." }
  else
    let s1 : Session := { s with appState := .Processing, error := none }
    match s.images with
    | [] => .tooFew s  -- unreachable: the guard above catches length 0
    | f :: _ =>
      match f.dataUrl with
      | .bad =>
        .probeFailed
          { s1 with error := some "Không thể đọc kích thước ảnh để tạo GIF.",
                    appState := .Capturing }
      | .img w h =>
        .invoked s1
          { images := s.images.map Frame.dataUrl
            interval := (s.gifSpeed : ℚ) / 1000
            numWorkers := 2
            gifWidth := w
            gifHeight := h }
          (gifshotCallback s1)

/-! ## Theorems -/

/-- Rounding a ratio `a/b` with `a ≤ M * b` stays at most `M` (used to show
the downscaled smaller dimension never exceeds the 1920 bound). -/
theorem jsRound_le_of_le (a b M : Nat) (hb : 0 < b) (h : a ≤ M * b) :
    jsRound a b ≤ M := by
  unfold jsRound
  have h2b : 0 < 2 * b := by omega
  have : 2 * a + b < (M + 1) * (2 * b) := by nlinarith
  have hlt : (2 * a + b) / (2 * b) < M + 1 :=
    (Nat.div_lt_iff_lt_mul h2b).mpr this
  omega

/-- C1: `processImage` preserves dimensions exactly when both are ≤ 1920;
otherwise the larger output dimension equals 1920 and the smaller equals
`round(smaller * 1920 / larger)`. -/
theorem processImage_dims (w h : Nat) :
    ((w ≤ 1920 ∧ h ≤ 1920) → processImage (.img w h) = .ok (.img w h)) ∧
    (1920 < max w h →
      ∃ w2 h2, processImage (.img w h) = .ok (.img w2 h2) ∧
        max w2 h2 = 1920 ∧
        min w2 h2 = jsRound (min w h * 1920) (max w h)) := by
  constructor
  · intro hsmall
    simp [processImage, hsmall]
  · intro hbig
    have hns : ¬ (w ≤ 1920 ∧ h ≤ 1920) := by omega
    by_cases hwh : w > h
    · refine ⟨1920, jsRound (h * 1920) w, ?_, ?_, ?_⟩
      · simp [processImage, hns, hwh]
      · have hw : 0 < w := by omega
        have : jsRound (h * 1920) w ≤ 1920 :=
          jsRound_le_of_le _ _ _ hw (by nlinarith)
        omega
      · have hw : 0 < w := by omega
        have hle : jsRound (h * 1920) w ≤ 1920 :=
          jsRound_le_of_le _ _ _ hw (by nlinarith)
        have hmin : min 1920 (jsRound (h * 1920) w) = jsRound (h * 1920) w :=
          min_eq_right hle
        rw [hmin, min_eq_right (le_of_lt hwh), max_eq_left (le_of_lt hwh)]
    · push_neg at hwh
      refine ⟨jsRound (w * 1920) h, 1920, ?_, ?_, ?_⟩
      · simp [processImage, hns, Nat.not_lt.mpr hwh]
      · have hh : 0 < h := by omega
        have : jsRound (w * 1920) h ≤ 1920 :=
          jsRound_le_of_le _ _ _ hh (by nlinarith)
        omega
      · have hh : 0 < h := by omega
        have hle : jsRound (w * 1920) h ≤ 1920 :=
          jsRound_le_of_le _ _ _ hh (by nlinarith)
        have hmin : min (jsRound (w * 1920) h) 1920 = jsRound (w * 1920) h :=
          min_eq_left hle
        rw [hmin, min_eq_left hwh, max_eq_right hwh]

/-- Witness for C1 at concrete inputs: an 800×600 image is untouched and a
3000×2000 image downscales to 1920×1280. -/
theorem processImage_dims_witness :
    processImage (.img 800 600) = .ok (.img 800 600) ∧
    ∃ w2 h2, processImage (.img 3000 2000) = .ok (.img w2 h2) ∧
      max w2 h2 = 1920 ∧
      min w2 h2 = jsRound (min 3000 2000 * 1920) (max 3000 2000) :=
  ⟨(processImage_dims 800 600).1 (by omega),
   (processImage_dims 3000 2000).2 (by simp)⟩

/-- Whether a settled promise fulfilled (rather than rejected). -/
def isFulfilled : Except String (Option Frame) → Bool
  | .ok _ => true
  | .error _ => false

/-- A batch with no rejected promise has no rejections, at any times. -/
theorem rejections_eq_nil (ps : List (Except String (Option Frame)))
    (times : List Nat) (h : ∀ p ∈ ps, isFulfilled p = true) :
    rejections ps times = [] := by
  unfold rejections
  rw [List.filterMap_eq_nil_iff]
  intro pt hpt
  have hp := (List.of_mem_zip hpt).1
  have hful := h pt.1 hp
  cases hpt1 : pt.1 with
  | ok v => simp
  | error e => rw [hpt1] at hful; simp [isFulfilled] at hful

/-- A batch with a rejected promise has a rejection, whenever every promise
has a completion time. -/
theorem rejections_ne_nil (ps : List (Except String (Option Frame)))
    (times : List Nat) (hlen : ps.length ≤ times.length)
    (h : ∃ p ∈ ps, isFulfilled p = false) : rejections ps times ≠ [] := by
  induction ps generalizing times with
  | nil => rcases h with ⟨p, hp, _⟩; simp at hp
  | cons p ps ih =>
    cases times with
    | nil => simp at hlen
    | cons t ts =>
      unfold rejections
      rw [List.zip_cons_cons, List.filterMap_cons]
      cases hp : p with
      | error e => simp
      | ok v =>
        simp only []
        rcases h with ⟨q, hq, hqerr⟩
        rcases List.mem_cons.mp hq with rfl | hq2
        · rw [hp] at hqerr; simp [isFulfilled] at hqerr
        · have := ih ts (by simpa using hlen) ⟨q, hq2, hqerr⟩
          simpa [rejections] using this

/-- C10: submitting an empty file selection leaves the whole session state
untouched — frames, timing, phase, error message and loading flag. -/
theorem empty_selection_noop (s : Session) (times : List Nat) :
    handleFileChange s [] times = s := rfl

/-- C2: if any file of a non-empty batch fails to read or to decode, no
frame is appended, an error message is surfaced, and the phase stays
Capturing (for any completion order of the concurrent normalizations). -/
theorem batch_failure_aborts_append (s : Session) (files : List FileOutcome)
    (times : List Nat) (hlen : files.length ≤ times.length)
    (hfail : ∃ f ∈ files, isFulfilled (filePromise f) = false)
    (hcap : s.appState = AppState.Capturing) :
    (handleFileChange s files times).images = s.images ∧
    (handleFileChange s files times).error ≠ none ∧
    (handleFileChange s files times).appState = AppState.Capturing := by
  have hne : files ≠ [] := by
    rintro rfl; rcases hfail with ⟨f, hf, _⟩; simp at hf
  have hmaplen : (files.map filePromise).length ≤ times.length := by
    simpa using hlen
  have hfail2 : ∃ p ∈ files.map filePromise, isFulfilled p = false := by
    rcases hfail with ⟨f, hf, hp⟩
    exact ⟨filePromise f, List.mem_map_of_mem _ hf, hp⟩
  have hrej := rejections_ne_nil _ _ hmaplen hfail2
  rcases hr : rejections (files.map filePromise) times with _ | ⟨r, rs⟩
  · exact absurd hr hrej
  · simp only [handleFileChange, promiseAll, hr]
    simp [List.isEmpty_iff, hne, hcap]

/-- Witness for C2: a batch of one good image and one unreadable file,
with the unreadable file completing first, appends nothing to an empty
collection, surfaces an error, and stays in Capturing. -/
theorem batch_failure_aborts_append_witness :
    (handleFileChange ⟨.Capturing, [], none, false, none, 120⟩
      [.content 0 (.img 4 4), .readError] [1, 0]).images = [] ∧
    (handleFileChange ⟨.Capturing, [], none, false, none, 120⟩
      [.content 0 (.img 4 4), .readError] [1, 0]).error ≠ none ∧
    (handleFileChange ⟨.Capturing, [], none, false, none, 120⟩
      [.content 0 (.img 4 4), .readError] [1, 0]).appState =
      AppState.Capturing :=
  batch_failure_aborts_append _ _ _ (by decide) (by decide) rfl

/-- The frame a successful file of a batch contributes (`null` for silently
dropped non-image files). -/
def normalizedOf (f : FileOutcome) : Option Frame :=
  match filePromise f with
  | .ok v => v
  | .error _ => none

/-- C4: a non-empty batch whose normalizations all succeed is appended after
all existing frames, in the original file-selection order, for any
completion order of the concurrent normalizations. -/
theorem batch_success_appends_in_order (s : Session)
    (files : List FileOutcome) (times : List Nat) (hne : files ≠ [])
    (hok : ∀ f ∈ files, isFulfilled (filePromise f) = true) :
    handleFileChange s files times =
      { s with images := s.images ++ files.filterMap normalizedOf,
               error := none, loading := false } := by
  have hallok : ∀ p ∈ files.map filePromise, isFulfilled p = true := by
    intro p hp
    rcases List.mem_map.mp hp with ⟨f, hf, rfl⟩
    exact hok f hf
  have hrej : rejections (files.map filePromise) times = [] :=
    rejections_eq_nil _ _ hallok
  simp only [handleFileChange, promiseAll, hrej]
  simp only [List.isEmpty_iff, hne, if_neg]
  rw [List.map_map, List.filterMap_map]
  rfl

/-- Witness for C4: two images around a silently dropped non-image file,
completing out of order, append in file order with the big one downscaled
to 1920×1280. -/
theorem batch_success_appends_in_order_witness :
    handleFileChange ⟨.Capturing, [⟨9, .img 2 2⟩], none, false, none, 120⟩
        [.content 7 (.img 4 4), .nonImage, .content 8 (.img 3000 2000)]
        [5, 1, 3] =
      { (⟨.Capturing, [⟨9, .img 2 2⟩], none, false, none, 120⟩ : Session) with
        images := [⟨9, .img 2 2⟩] ++
          [.content 7 (.img 4 4), .nonImage,
           .content 8 (.img 3000 2000)].filterMap normalizedOf,
        error := none, loading := false } ∧
    [FileOutcome.content 7 (.img 4 4), .nonImage,
     .content 8 (.img 3000 2000)].filterMap normalizedOf =
      [⟨7, .img 4 4⟩, ⟨8, .img 1920 1280⟩] :=
  ⟨batch_success_appends_in_order _ _ _ (by decide) (by decide), by decide⟩

/-- Inversion: a `handleCreateGif` run that invoked the encoder did so from
the Processing state with the error cleared, and its callback is the
`gifshot` completion callback over that state. -/
theorem createGif_invoked_inv (s s1 : Session) (call : EncoderCall)
    (cb : GifshotResponse → Session)
    (hinv : handleCreateGif s = CreateGifResult.invoked s1 call cb) :
    s1 = { s with appState := .Processing, error := none } ∧
    cb = gifshotCallback { s with appState := .Processing, error := none } := by
  by_cases hl : s.images.length < 2
  · simp [handleCreateGif, hl] at hinv
  · rcases hsi : s.images with _ | ⟨f, rest⟩
    · rw [hsi] at hl; simp at hl
    · rcases hdu : f.dataUrl with ⟨w, h⟩ | _
      · rw [handleCreateGif, if_neg hl, hsi] at hinv
        simp only [hdu, CreateGifResult.invoked.injEq] at hinv
        exact ⟨hinv.1.symm, hinv.2.2.symm⟩
      · rw [handleCreateGif, if_neg hl, hsi] at hinv
        simp only [hdu] at hinv
        simp at hinv

/-- Inversion: a `handleCreateGif` run that failed the dimension probe ends
back in Capturing with the probe error message, the frames untouched. -/
theorem createGif_probeFailed_inv (s s2 : Session)
    (hpf : handleCreateGif s = CreateGifResult.probeFailed s2) :
    s2 = { s with appState := .Capturing,
                  error := some "Không thể đọc kích thước ảnh để tạo GIF." } := by
  by_cases hl : s.images.length < 2
  · simp [handleCreateGif, hl] at hpf
  · rcases hsi : s.images with _ | ⟨f, rest⟩
    · rw [hsi] at hl; simp at hl
    · rcases hdu : f.dataUrl with ⟨w, h⟩ | _
      · rw [handleCreateGif, if_neg hl, hsi] at hpf
        simp only [hdu] at hpf
        simp at hpf
      · rw [handleCreateGif, if_neg hl, hsi] at hpf
        simp only [hdu, CreateGifResult.probeFailed.injEq] at hpf
        exact hpf.symm

/-- C6: triggering assembly in Capturing with fewer than 2 frames stores the
validation message, never invokes the encoder, keeps the frames, and the
phase stays Capturing. -/
theorem createGif_too_few_frames (s : Session)
    (hlen : s.images.length < 2) (hcap : s.appState = AppState.Capturing) :
    handleCreateGif s =
      CreateGifResult.tooFew
        { s with error := some "Vui lòng tải lên ít nhất 2 ảnh để tạo GIF." } ∧
    (∀ s1 call cb, handleCreateGif s ≠ CreateGifResult.invoked s1 call cb) ∧
    ({ s with error := some "Vui lòng tải lên ít nhất 2 ảnh để tạo GIF."
      } : Session).appState = AppState.Capturing ∧
    ({ s with error := some "Vui lòng tải lên ít nhất 2 ảnh để tạo GIF."
      } : Session).images = s.images := by
  refine ⟨by simp [handleCreateGif, hlen], ?_, by simpa, rfl⟩
  intro s1 call cb hbad
  rw [handleCreateGif, if_pos hlen] at hbad
  simp at hbad

/-- Witness for C6: one frame in Capturing. -/
theorem createGif_too_few_frames_witness :
    handleCreateGif ⟨.Capturing, [⟨0, .img 4 4⟩], none, false, none, 120⟩ =
      CreateGifResult.tooFew
        { (⟨.Capturing, [⟨0, .img 4 4⟩], none, false, none, 120⟩ : Session)
          with error := some "Vui lòng tải lên ít nhất 2 ảnh để tạo GIF." } :=
  (createGif_too_few_frames _ (by decide) rfl).1

/-- C5: with at least 2 frames whose first decodes to `w × h`, assembly
invokes the encoder exactly once, with the frames' data URLs in collection
order, `interval = gifSpeed / 1000` seconds, 2 workers, and `w × h` as the
target dimensions, from the Processing state. -/
theorem createGif_invokes_encoder (s : Session) (f : Frame)
    (rest : List Frame) (w h : Nat) (himg : s.images = f :: rest)
    (hlen : 2 ≤ s.images.length) (hdec : f.dataUrl = DataUrl.img w h) :
    handleCreateGif s =
      CreateGifResult.invoked { s with appState := .Processing, error := none }
        { images := s.images.map Frame.dataUrl
          interval := (s.gifSpeed : ℚ) / 1000
          numWorkers := 2
          gifWidth := w
          gifHeight := h }
        (gifshotCallback { s with appState := .Processing, error := none }) := by
  have hl : ¬ s.images.length < 2 := by omega
  rw [handleCreateGif, if_neg hl, himg]
  simp only [hdec]

/-- The concrete session for the C5 witness: two 5×6 frames at 100 ms per
frame. -/
def c5Session : Session :=
  ⟨.Capturing, [⟨0, .img 5 6⟩, ⟨1, .img 5 6⟩], none, false, none, 100⟩

/-- The encoder call the C5 witness expects. -/
def c5Call : EncoderCall :=
  { images := c5Session.images.map Frame.dataUrl
    interval := (c5Session.gifSpeed : ℚ) / 1000
    numWorkers := 2
    gifWidth := 5
    gifHeight := 6 }

/-- Witness for C5: two 5×6 frames at `msPerFrame = 100` call the encoder
once with `interval = 0.1` seconds, 2 workers and dimensions 5×6. -/
theorem createGif_invokes_encoder_witness :
    handleCreateGif c5Session =
      CreateGifResult.invoked
        { c5Session with appState := .Processing, error := none } c5Call
        (gifshotCallback
          { c5Session with appState := .Processing, error := none }) ∧
    c5Call.interval = 1 / 10 ∧ c5Call.images = [.img 5 6, .img 5 6] :=
  ⟨createGif_invokes_encoder c5Session ⟨0, .img 5 6⟩ [⟨1, .img 5 6⟩] 5 6 rfl
      (by decide) rfl,
   by norm_num [c5Call, c5Session], rfl⟩

/-- C7: when the encoder reports `{error: true, errorMsg: m}`, the final
state is in Capturing (an error-recoverable phase: every operation of the
Capturing phase is available again), its error message contains `m`
verbatim, and the frame collection is exactly the one assembly started
from. -/
theorem encoder_error_surfaced (s s1 : Session) (call : EncoderCall)
    (cb : GifshotResponse → Session) (img m : String)
    (hinv : handleCreateGif s = CreateGifResult.invoked s1 call cb) :
    (cb ⟨true, img, m⟩).appState = AppState.Capturing ∧
    (cb ⟨true, img, m⟩).images = s.images ∧
    ∃ pre post, (cb ⟨true, img, m⟩).error = some (pre ++ m ++ post) := by
  obtain ⟨hs1, hcb⟩ := createGif_invoked_inv s s1 call cb hinv
  subst hcb
  refine ⟨rfl, rfl, "Tạo GIF thất bại: ", "", ?_⟩
  show some ("Tạo GIF thất bại: " ++ m) = some ("Tạo GIF thất bại: " ++ m ++ "")
  rw [String.append_empty]

/-- The concrete session for the C7 witness. -/
def c7Session : Session :=
  ⟨.Capturing, [⟨0, .img 4 4⟩, ⟨1, .img 4 4⟩], none, false, none, 120⟩

/-- The Processing-phase state of the C7 witness. -/
def c7S1 : Session := { c7Session with appState := .Processing, error := none }

/-- Witness for C7: the encoder answering `{error: true, errorMsg: "oom"}`
leaves the two frames intact, returns to Capturing, and surfaces "oom". -/
theorem encoder_error_surfaced_witness :
    (gifshotCallback c7S1 ⟨true, "", "oom"⟩).appState = AppState.Capturing ∧
    (gifshotCallback c7S1 ⟨true, "", "oom"⟩).images = c7Session.images ∧
    ∃ pre post,
      (gifshotCallback c7S1 ⟨true, "", "oom"⟩).error =
        some (pre ++ "oom" ++ post) :=
  encoder_error_surfaced c7Session c7S1
    { images := c7Session.images.map Frame.dataUrl
      interval := (c7Session.gifSpeed : ℚ) / 1000
      numWorkers := 2
      gifWidth := 4
      gifHeight := 4 }
    (gifshotCallback c7S1) "" "oom" rfl

/-- The concrete session used to refute C3: two decodable 4×4 frames. -/
def c3Session : Session :=
  ⟨.Capturing, [⟨0, .img 4 4⟩, ⟨1, .img 4 4⟩], none, false, none, 120⟩

/-- Counterexample to C3: from `c3Session` the encoder reports an error
(`{error: true, errorMsg: "boom"}`), i.e. assembly fails, yet the session
settles in Capturing — not in the Error phase as the claim states. -/
theorem assembly_failure_not_error_phase :
    ((handleCreateGif c3Session).settle ⟨true, "", "boom"⟩).appState =
      AppState.Capturing ∧
    ((handleCreateGif c3Session).settle ⟨true, "", "boom"⟩).appState ≠
      AppState.Error := by
  constructor
  · rfl
  · decide

/-- C3 as amended: when assembly fails — the first frame's dimension probe
fails, or the encoder reports an error — the session leaves Processing for
Capturing (not the Error phase), with an error message surfaced and the
frame collection retained. -/
theorem assembly_failure_to_capturing (s s1 s2 : Session)
    (call : EncoderCall) (cb : GifshotResponse → Session) (img m : String) :
    (handleCreateGif s = CreateGifResult.probeFailed s2 →
      s2.appState = AppState.Capturing ∧ s2.error ≠ none ∧
      s2.images = s.images) ∧
    (handleCreateGif s = CreateGifResult.invoked s1 call cb →
      s1.appState = AppState.Processing ∧
      (cb ⟨true, img, m⟩).appState = AppState.Capturing ∧
      (cb ⟨true, img, m⟩).error ≠ none ∧
      (cb ⟨true, img, m⟩).images = s.images) := by
  constructor
  · intro hpf
    rw [createGif_probeFailed_inv s s2 hpf]
    exact ⟨rfl, by simp, rfl⟩
  · intro hinv
    obtain ⟨hs1, hcb⟩ := createGif_invoked_inv s s1 call cb hinv
    subst hcb
    rw [hs1]
    exact ⟨rfl, rfl, by simp [gifshotCallback], rfl⟩

/-- The concrete session for the C3-amended witness: its first frame does
not decode, so the dimension probe fails. -/
def c3BadSession : Session :=
  ⟨.Capturing, [⟨0, .bad⟩, ⟨1, .img 4 4⟩], none, false, none, 120⟩

/-- The state the dimension-probe failure of `c3BadSession` lands in. -/
def c3BadAfter : Session :=
  { c3BadSession with
    appState := .Capturing
    error := some "Không thể đọc kích thước ảnh để tạo GIF." }

/-- Witness for the amended C3, covering both failure modes: the dimension
probe failing on `c3BadSession`, and the encoder erroring on `c3Session`. -/
theorem assembly_failure_to_capturing_witness :
    (c3BadAfter.appState = AppState.Capturing ∧ c3BadAfter.error ≠ none ∧
      c3BadAfter.images = c3BadSession.images) ∧
    (({ c3Session with appState := .Processing, error := none } :
        Session).appState = AppState.Processing ∧
      (gifshotCallback { c3Session with appState := .Processing, error := none }
        ⟨true, "", "boom"⟩).appState = AppState.Capturing ∧
      (gifshotCallback { c3Session with appState := .Processing, error := none }
        ⟨true, "", "boom"⟩).error ≠ none ∧
      (gifshotCallback { c3Session with appState := .Processing, error := none }
        ⟨true, "", "boom"⟩).images = c3Session.images) :=
  ⟨(assembly_failure_to_capturing c3BadSession c3BadSession c3BadAfter
      ⟨[], 0, 0, 0, 0⟩ (fun _ => c3BadSession) "" "boom").1 (by rfl),
   (assembly_failure_to_capturing c3Session
      { c3Session with appState := .Processing, error := none }
      c3BadAfter
      { images := c3Session.images.map Frame.dataUrl
        interval := (c3Session.gifSpeed : ℚ) / 1000
        numWorkers := 2
        gifWidth := 4
        gifHeight := 4 }
      (gifshotCallback
        { c3Session with appState := .Processing, error := none })
      "" "boom").2 rfl⟩

/-- C8: clicking Back sets the phase to Capturing and discards the assembled
GIF, leaving the frame collection and the timing parameter unchanged (from
any phase, in particular Animating). -/
theorem back_discards_gif (s : Session) :
    (handleBack s).appState = AppState.Capturing ∧
    (handleBack s).generatedGif = none ∧
    (handleBack s).images = s.images ∧
    (handleBack s).gifSpeed = s.gifSpeed ∧
    (handleBack s).error = s.error :=
  ⟨rfl, rfl, rfl, rfl, rfl⟩

/-- C9: removing a frame id keeps the error and phase, leaves no frame with
that id, retains every other frame, and is the exact identity on the whole
session when no frame has that id (no error is raised — the handler is
total). -/
theorem remove_frame (s : Session) (id : Nat) :
    (handleRemoveImage s id).error = s.error ∧
    (handleRemoveImage s id).appState = s.appState ∧
    (∀ f ∈ (handleRemoveImage s id).images, f.id ≠ id) ∧
    (∀ f ∈ s.images, f.id ≠ id → f ∈ (handleRemoveImage s id).images) ∧
    ((∀ f ∈ s.images, f.id ≠ id) → handleRemoveImage s id = s) := by
  refine ⟨rfl, rfl, ?_, ?_, ?_⟩
  · intro f hf
    have := (List.mem_filter.mp hf).2
    simpa using this
  · intro f hf hne
    exact List.mem_filter.mpr ⟨hf, by simpa using hne⟩
  · intro h
    have hfe : s.images.filter (fun img => decide (img.id ≠ id)) = s.images :=
      List.filter_eq_self.mpr (fun f hf => by simpa using h f hf)
    show { s with images := s.images.filter fun img => img.id ≠ id } = s
    rw [show (s.images.filter fun img => img.id ≠ id) = s.images from hfe]

/-- Witness for C9: removing the absent id 3 from a two-frame collection
leaves the session exactly unchanged, and no frame with id 3 remains. -/
theorem remove_frame_witness :
    handleRemoveImage
        ⟨.Capturing, [⟨1, .img 4 4⟩, ⟨2, .img 4 4⟩], none, false, none, 120⟩
        3 =
      ⟨.Capturing, [⟨1, .img 4 4⟩, ⟨2, .img 4 4⟩], none, false, none, 120⟩ ∧
    ∀ f ∈ (handleRemoveImage
        ⟨.Capturing, [⟨1, .img 4 4⟩, ⟨2, .img 4 4⟩], none, false, none, 120⟩
        3).images, f.id ≠ 3 :=
  ⟨(remove_frame _ 3).2.2.2.2 (by decide), (remove_frame _ 3).2.2.1⟩

end GifMaker
